import Mathlib

/-!
# Verification of oerplib's model pool and OSV proxy

Shallow embedding of `src/oerplib/pool.py` (class `ModelPool`) and
`src/oerplib/service/osv/osv.py` (class `OSV`) in Lean 4, together with
theorems settling the frozen claims about those two files.

Modelling conventions:
* Python JSON-like values (the data exchanged with the remote server) are
  the inductive type `Value` below; Python truthiness is `Value.truthy`.
* Python dictionaries are association lists with first-match lookup and
  in-place replacement on assignment (`alGet` / `alSet`), which matches
  dict key semantics; insertion order is preserved as in CPython.
* Object mutation is modelled by explicit state passing: every method that
  mutates a record returns the record after the call.  A Python exception
  is an `Err` value; a method that can raise returns the error alongside
  the record state it left behind.
* The remote server (`self._oerp.execute` / `execute_kw` and the RPC
  methods reached through `OSV.__getattr__`, i.e. `read`, `default_get`,
  `write`) is a black-box collaborator, modelled as a `Server` record of
  functions supplied as a parameter.  The remote calls a method issues are
  reported in a trace of `SCall` values.
-/

namespace Oerplib

/-- JSON-like values exchanged with the OpenERP server and stored in
records: booleans, integers, strings, lists and string-keyed mappings. -/
inductive Value where
  | vBool : Bool → Value
  | vInt : Int → Value
  | vStr : String → Value
  | vList : List Value → Value
  | vDict : List (String × Value) → Value
deriving Repr

/-- Python truthiness of a `Value` (`bool(x)`): `False`, `0`, `""`, `[]`
and `{}` are falsy, everything else is truthy. -/
def Value.truthy : Value → Bool
  | .vBool b => b
  | .vInt n => n != 0
  | .vStr s => !s.isEmpty
  | .vList l => !l.isEmpty
  | .vDict l => !l.isEmpty

/-- Python `str(x)` restricted to the value shapes that reach the error
message formatting in `OSV._refresh` (the record id). -/
def Value.pyStr : Value → String
  | .vBool true => "True"
  | .vBool false => "False"
  | .vInt n => toString n
  | .vStr s => s
  | .vList _ => "[...]"
  | .vDict _ => "{...}"

/-- Python `isinstance(x, list)`. -/
def Value.isVList : Value → Bool
  | .vList _ => true
  | _ => false

/-- Python `x[0]`: defined for non-empty lists (first element) and
non-empty strings (first character); `none` models the `IndexError` /
`TypeError` Python raises otherwise. -/
def Value.sub0 : Value → Option Value
  | .vList (x :: _) => some x
  | .vStr s =>
      match s.data with
      | c :: _ => some (.vStr (String.mk [c]))
      | [] => none
  | _ => none

/-- First-match association-list lookup: Python `d[k]` returning `none`
for a `KeyError`. -/
def alGet [DecidableEq α] : List (α × β) → α → Option β
  | [], _ => none
  | (k, v) :: t, k0 => if k0 = k then some v else alGet t k0

/-- Python `k in d`. -/
def alHas [DecidableEq α] (l : List (α × β)) (k : α) : Bool :=
  (alGet l k).isSome

/-- Python `d[k] = v`: replace the binding in place if the key is
present, append it otherwise (CPython dict assignment). -/
def alSet [DecidableEq α] : List (α × β) → α → β → List (α × β)
  | [], k0, v0 => [(k0, v0)]
  | (k, v) :: t, k0, v0 =>
      if k0 = k then (k0, v0) :: t else (k, v) :: alSet t k0 v0

/-- Python `del d[k]` (the key is assumed unique, as in a dict). -/
def alDel [DecidableEq α] : List (α × β) → α → List (α × β)
  | [], _ => []
  | (k, v) :: t, k0 => if k0 = k then t else (k, v) :: alDel t k0

/-- Python `d.update(upd)`: assign every binding of `upd`, in order. -/
def alUpdate [DecidableEq α] (base upd : List (α × β)) : List (α × β) :=
  upd.foldl (fun acc p => alSet acc p.1 p.2) base

/-- Python `k in v` for a record's `raw_data` slot, whose stored value is
a `Value` (`OSV._refresh` may leave a non-mapping there): key membership
on mappings, `false` on every non-mapping. -/
def Value.hasKeyB : Value → String → Bool
  | .vDict l, k => alHas l k
  | _, _ => false

/-- Python `v[k]` for a mapping-valued `Value`. -/
def Value.getKey : Value → String → Option Value
  | .vDict l, k => alGet l k
  | _, _ => none

theorem alGet_alSet_self [DecidableEq α] (l : List (α × β)) (k : α) (v : β) :
    alGet (alSet l k v) k = some v := by
  induction l with
  | nil => simp [alSet, alGet]
  | cons p t ih =>
      by_cases h : k = p.1
      · simp [alSet, alGet, h]
      · simp [alSet, alGet, h, ih]

theorem alGet_alSet_ne [DecidableEq α] (l : List (α × β)) (k k' : α) (v : β)
    (h : k' ≠ k) : alGet (alSet l k v) k' = alGet l k' := by
  induction l with
  | nil => simp [alSet, alGet, h]
  | cons p t ih =>
      by_cases hk : k = p.1
      · subst hk
        simp [alSet, alGet, h]
      · by_cases hk' : k' = p.1
        · simp [alSet, alGet, hk, hk']
        · simp [alSet, alGet, hk, hk', ih]

/-! ## Field descriptors and schema generation (`OSV._generate_browse_class`) -/

/-- The relevant metadata of one server-side field definition, as returned
by the remote `fields_get` introspection call. -/
structure FieldDef where
  ftype : String
  label : String
  readonly : Bool
deriving Repr, DecidableEq

/-- A generated local field descriptor. -/
structure Field where
  name : String
  ftype : String
  label : String
  readonly : Bool
deriving Repr, DecidableEq

/-- Modelled from the spec: `fields.generate_field` lives in
`oerplib/service/osv/fields.py`, which is not under `src/`; per spec §4.1
it maps one remote field definition to a descriptor carrying the field's
name, the server-declared type tag, the label and the read-only flag. -/
def generate_field (name : String) (d : FieldDef) : Field :=
  ⟨name, d.ftype, d.label, d.readonly⟩

/-- Modelled from the spec: `fields.Many2OneField` (fields.py, not under
`src/`) is the descriptor kind `generate_field` selects for the server
type tag `many2one` (spec §4.1, reference-single). -/
def Field.isMany2One (f : Field) : Bool :=
  f.ftype = "many2one"

/-- `OSV.fields_reserved` (osv.py line 38). -/
def fields_reserved : List String := ["id", "__oerp__", "__osv__", "__data__"]

/-- The field-definition dictionary used for the synthetic `name` field in
`OSV._generate_browse_class`. -/
def synthetic_name_def : FieldDef := ⟨"text", "Name", true⟩

/-- The first loop of `OSV._generate_browse_class` (osv.py lines 91-96):
every non-reserved field of the `fields_get` result becomes a
descriptor. -/
def generate_base (fields_get : List (String × FieldDef)) :
    List (String × Field) :=
  (fields_get.filter (fun p => p.1 ∉ fields_reserved)).map
    (fun p => (p.1, generate_field p.1 p.2))

/-- The descriptor map built by `OSV._generate_browse_class` (osv.py
lines 91-101): the non-reserved descriptors, with a read-only text
descriptor `name` appended when no field named `name` resulted. -/
def generate_columns (fields_get : List (String × FieldDef)) :
    List (String × Field) :=
  let cls_fields := generate_base fields_get
  if alHas cls_fields "name" then cls_fields
  else cls_fields ++ [("name", generate_field "name" synthetic_name_def)]

/-! ## Records and the remote collaborator -/

/-- Python exceptions that the modelled code can raise. `rpcError` is
`oerplib.error.RPCError`; the others are builtin Python exceptions that
the embedded code paths could hit. -/
inductive Err where
  | rpcError : String → Err
  | keyError : String → Err
  | attributeError : String → Err
  | typeError : Err
  | indexError : Err
deriving Repr, DecidableEq

/-- The mutable state of one `browse_record` instance: the parts of the
object `OSV`'s methods touch.  `raw_data`, `fields_updated` and `context`
live in the Python object's `__data__` dictionary; `localVals` holds the
per-field `_<name>` attributes that `OSV._reset` assigns (and through
which `OSV._write_record` reads current values with `getattr`).
`raw_data` is a whole `Value` because `OSV._refresh` stores the raw
server reply there before inspecting it. -/
structure BrowseRecord where
  id : Value
  raw_data : Value
  fields_updated : List String
  context : List (String × Value)
  localVals : List (String × Value)
deriving Repr

/-- Modelled from the spec: `browse.BrowseRecord.__init__` lives in
`oerplib/service/osv/browse.py`, which is not under `src/`; per spec §3 a
freshly constructed record holds the given id and no loaded data (its
`raw_data` is populated by the refresh that follows construction). -/
def newRecord (objId : Value) : BrowseRecord :=
  ⟨objId, .vDict [], [], [], []⟩

/-- One remote call issued by the embedded methods, for call-counting.
`read`/`default_get`/`write` are the RPC methods `OSV._refresh` and
`OSV._write_record` reach through `OSV.__getattr__`; both calling
conventions (`compatible` and standard) carry the same payload, so the
trace records the payload only. -/
inductive SCall where
  | read : List Value → List (String × Value) → SCall
  | default_get : List String → List (String × Value) → SCall
  | write : List Value → List (String × Value) → List (String × Value) → SCall
deriving Repr

/-- The black-box remote server: what each RPC returns.  `read` returns
the raw RPC reply (a list of row values, or whatever the server sent);
`default_get` returns the defaults mapping; `write` either returns a
result value or raises (`Except.error`). -/
structure Server where
  read : List Value → List (String × Value) → Value
  default_get : List String → List (String × Value) → List (String × Value)
  write : List Value → List (String × Value) → List (String × Value) →
    Except Err Value

/-- The outcome of a record-mutating method: the record state after the
call, the exception if one was raised, and the remote calls issued. -/
structure RefreshOut where
  obj : BrowseRecord
  err : Option Err
  calls : List SCall
deriving Repr

/-- The error message formatted in `OSV._refresh` (osv.py lines 155-157). -/
def notFoundMsg (osv_name : String) (objId : Value) : String :=
  "There is no '" ++ osv_name ++ "' record with ID " ++ objId.pyStr ++ "."

/-- `OSV._reset` (osv.py lines 172-186): empty the `fields_updated` list,
then for every schema column whose name is a key of `raw_data`, copy the
`raw_data` value into the record's `_<name>` attribute.  (The
`setattr(obj.__class__, field.name, field)` line re-installs the class
descriptor and has no per-record state.)  `reset_step` is one iteration
of the loop; `osv_reset` is the whole method. -/
def reset_step (o : BrowseRecord) (p : String × Field) : BrowseRecord :=
  if o.raw_data.hasKeyB p.2.name then
    match o.raw_data.getKey p.2.name with
    | some v => { o with localVals := alSet o.localVals p.2.name v }
    | none => o
  else o

def osv_reset (columns : List (String × Field)) (obj : BrowseRecord) :
    BrowseRecord :=
  columns.foldl reset_step { obj with fields_updated := [] }

/-- `OSV._refresh` (osv.py lines 138-170).  With a truthy id: issue one
`read` for that id, store element 0 of the reply in `raw_data`, raise
`RPCError` if that element is the boolean `False` (`is False`), otherwise
reset.  With a falsy id: issue one `default_get` over all column names,
build `raw_data` as every column mapped to `False` updated with the
defaults, then reset.  (`context = context or {}` is the identity here
because an absent context is modelled as the empty mapping.) -/
def osv_refresh (srv : Server) (columns : List (String × Field))
    (osv_name : String) (obj : BrowseRecord)
    (context : List (String × Value)) : RefreshOut :=
  let obj := { obj with context := context }
  if obj.id.truthy then
    let call := SCall.read [obj.id] context
    match (srv.read [obj.id] context).sub0 with
    | none => ⟨obj, some .indexError, [call]⟩
    | some rd =>
        let obj := { obj with raw_data := rd }
        match rd with
        | .vBool false =>
            ⟨obj, some (.rpcError (notFoundMsg osv_name obj.id)), [call]⟩
        | _ => ⟨osv_reset columns obj, none, [call]⟩
  else
    let names := columns.map Prod.fst
    let call := SCall.default_get names context
    let dg := srv.default_get names context
    let base := columns.map (fun p => (p.1, Value.vBool false))
    let obj := { obj with raw_data := .vDict (alUpdate base dg) }
    ⟨osv_reset columns obj, none, [call]⟩

/-- The Many2One branch of the payload loop in `OSV._write_record`
(osv.py line 121): Python `field_value and field_value[0]` — the value
itself when falsy, its first element otherwise (`none` models the
`TypeError`/`IndexError` of subscripting an unsubscriptable or empty
truthy value). -/
def m2oPayload (v : Value) : Option Value :=
  if v.truthy then v.sub0 else some v

/-- The `vals`-building loop of `OSV._write_record` (osv.py lines
114-124): for each name in `fields_updated`, in order, skip it silently
when it is not a key of `raw_data`; otherwise look up its column
descriptor (`KeyError` if absent), read the record's `_<name>` attribute
(`AttributeError` if never set), extract the id for Many2One fields, and
assign into the payload dictionary. -/
def build_vals (columns : List (String × Field)) (obj : BrowseRecord) :
    List String → List (String × Value) → Except Err (List (String × Value))
  | [], acc => .ok acc
  | fn :: rest, acc =>
      if obj.raw_data.hasKeyB fn then
        match alGet columns fn with
        | none => .error (.keyError fn)
        | some field =>
            match alGet obj.localVals fn with
            | none => .error (.attributeError ("_" ++ fn))
            | some fv =>
                let payload :=
                  if field.isMany2One then m2oPayload fv else some fv
                match payload with
                | none => .error .typeError
                | some v => build_vals columns obj rest (alSet acc fn v)
      else build_vals columns obj rest acc

/-- `OSV._write_record` (osv.py lines 111-136): build the payload from
the dirty fields, issue one remote `write`; on failure re-raise with the
record untouched, on success run `OSV._refresh` and return its state. -/
def osv_write_record (srv : Server) (columns : List (String × Field))
    (osv_name : String) (obj : BrowseRecord)
    (context : List (String × Value)) :
    BrowseRecord × Except Err Value × List SCall :=
  match build_vals columns obj obj.fields_updated [] with
  | .error e => (obj, .error e, [])
  | .ok vals =>
      let call := SCall.write [obj.id] vals context
      match srv.write [obj.id] vals context with
      | .error e => (obj, .error e, [call])
      | .ok res =>
          let r := osv_refresh srv columns osv_name obj context
          match r.err with
          | none => (r.obj, .ok res, call :: r.calls)
          | some e => (r.obj, .error e, call :: r.calls)

/-! ## Dynamic RPC forwarding (`OSV.__getattr__`) -/

/-- The configuration flags `OSV.__getattr__` consults
(`self._oerp.config`). -/
structure OerpConfig where
  compatible : Bool
  auto_context : Bool
deriving Repr, DecidableEq

/-- A low-level transport call: `self._oerp.execute` (compatibility
convention, positional only) or `self._oerp.execute_kw` (standard
convention, positional and keyword arguments). -/
inductive RCall where
  | execute : String → String → List Value → RCall
  | execute_kw : String → String → List Value → List (String × Value) → RCall
deriving Repr

/-- The exact message of the compatibility-mode error raised in
`OSV.__getattr__` (osv.py lines 201-203). -/
def namedParamsMsg : String :=
  "Named parameters are not supported in compatibility mode"

/-- The `rpc_method` closure returned by `OSV.__getattr__` (osv.py lines
195-213): under `compatible`, any keyword argument raises `RPCError`
before any transport call, otherwise the call is forwarded positionally
through `execute`; under the standard convention, the ambient context is
injected into the keyword arguments when `auto_context` is set and no
explicit `context` key is present, and the call goes through
`execute_kw`.  `exec` is the black-box transport; the second component
lists the transport calls issued. -/
def osv_rpc_method (cfg : OerpConfig) (oerpContext : List (String × Value))
    (exec : RCall → Value) (osv_name method : String)
    (args : List Value) (kwargs : List (String × Value)) :
    Except Err Value × List RCall :=
  if cfg.compatible then
    if !kwargs.isEmpty then
      (.error (.rpcError namedParamsMsg), [])
    else
      let c := RCall.execute osv_name method args
      (.ok (exec c), [c])
  else
    let kw :=
      if cfg.auto_context && !alHas kwargs "context" then
        alSet kwargs "context" (.vDict oerpContext)
      else kwargs
    let c := RCall.execute_kw osv_name method args kw
    (.ok (exec c), [c])

/-! ## Browse (`OSV.browse` and `OSV._browse_generator`) -/

/-- What `OSV.browse` returns: either one eagerly refreshed record (the
non-list branch, with the exception if the refresh raised one), or the
suspended generator of the list branch, holding the ids not yet pulled
and the captured context.  A Python generator runs none of its body at
creation, so creating it is pure. -/
inductive BrowseResult where
  | single : BrowseRecord → Option Err → BrowseResult
  | gen : List Value → List (String × Value) → BrowseResult
deriving Repr

/-- The single-id branch of `OSV.browse` (osv.py lines 76-78): construct
a fresh record for the id and refresh it. -/
def osv_browse_one (srv : Server) (columns : List (String × Field))
    (osv_name : String) (objId : Value) (context : List (String × Value)) :
    RefreshOut :=
  osv_refresh srv columns osv_name (newRecord objId) context

/-- `OSV.browse` (osv.py lines 54-78): a list of ids yields the
suspended generator (no remote call is issued at creation — the returned
trace is empty); anything else is browsed eagerly as a single id. -/
def osv_browse (srv : Server) (columns : List (String × Field))
    (osv_name : String) (ids : Value) (context : List (String × Value)) :
    BrowseResult × List SCall :=
  match ids with
  | .vList l => (.gen l context, [])
  | v =>
      let r := osv_browse_one srv columns osv_name v context
      (.single r.obj r.err, r.calls)

/-- One `next()` step of `OSV._browse_generator` (osv.py lines 46-52):
pulling from an exhausted generator stops; otherwise the next id is
browsed (`yield self.browse(o_id, context)`) and the remaining ids stay
suspended.  The elements are ids, not nested lists, so the inner
`browse` call is its single-id branch, `osv_browse_one`. -/
def gen_pull (srv : Server) (columns : List (String × Field))
    (osv_name : String) :
    List Value → List (String × Value) → Option (RefreshOut × List Value)
  | [], _ => none
  | i :: rest, context =>
      some (osv_browse_one srv columns osv_name i context, rest)

/-! ## The model pool (`pool.ModelPool`) -/

/-- Modelled from the spec: `factory.Factory` lives in
`oerplib/factory.py`, which is not under `src/`; per spec §3-§4.2 each
construction introspects the entity and yields a fresh proxy owning a
freshly generated record class.  Only the identities matter to the pool,
so a factory is modelled as its allocation identity `fid` together with
the identity `osvClass` of its generated class (`facto.osv['class']` in
pool.py); both are fresh at each construction. -/
structure Factory where
  fid : Nat
  osvClass : Nat
deriving Repr, DecidableEq

/-- `pool.ModelPool`'s state: the two indices
`_factories_by_osv_name` and `_factories_by_osv_class`, plus the
allocation counter that models the freshness of each
`factory.Factory(...)` construction. -/
structure ModelPool where
  counter : Nat
  byName : List (String × Factory)
  byClass : List (Nat × Factory)
deriving Repr, DecidableEq

/-- `ModelPool.__init__`: both indices empty. -/
def ModelPool.init : ModelPool := ⟨0, [], []⟩

/-- `ModelPool.get` (pool.py lines 21-33): an unknown name constructs a
factory and installs it in both indices; a known name with `refresh`
constructs a factory and installs it in the name index (only); the final
result is the name index's entry for the name. -/
def pool_get (p : ModelPool) (osv_name : String) (refresh : Bool) :
    ModelPool × Option Factory :=
  if !alHas p.byName osv_name then
    let facto : Factory := ⟨p.counter, p.counter⟩
    let p' : ModelPool :=
      ⟨p.counter + 1, alSet p.byName osv_name facto,
        alSet p.byClass facto.osvClass facto⟩
    (p', alGet p'.byName osv_name)
  else if refresh then
    let facto : Factory := ⟨p.counter, p.counter⟩
    let p' : ModelPool :=
      ⟨p.counter + 1, alSet p.byName osv_name facto, p.byClass⟩
    (p', alGet p'.byName osv_name)
  else (p, alGet p.byName osv_name)

/-- `ModelPool.get_by_class` (pool.py lines 35-40): lookup in the class
index; `none` is the `KeyError` of a missing class. -/
def pool_get_by_class (p : ModelPool) (cls : Nat) : Option Factory :=
  alGet p.byClass cls

/-- `ModelPool.__delitem__` (pool.py lines 53-55): look the name up
(`KeyError` when absent — the `.clear()` call empties the factory's own
record cache without touching the pool), then delete the name-index
entry.  The class index is not touched. -/
def pool_delitem (p : ModelPool) (osv_name : String) :
    ModelPool × Option Err :=
  match alGet p.byName osv_name with
  | none => (p, some (.keyError osv_name))
  | some _ => (⟨p.counter, alDel p.byName osv_name, p.byClass⟩, none)

/-! ## Concrete fixtures

Small concrete instances (a schema, servers, records, pools) on which the
theorems below are instantiated. -/

/-- A `fields_get` reply with a single `many2one` field and no `name`
field (so schema generation injects the synthetic one). -/
def fgEx : List (String × FieldDef) := [("partner_id", ⟨"many2one", "Partner", false⟩)]

/-- The generated columns for `fgEx`. -/
def colsEx : List (String × Field) := generate_columns fgEx

/-- A server whose `read` returns one well-formed row (covering exactly
the server-side fields of `fgEx`, plus `id`). -/
def srvReadRow : Server :=
  { read := fun _ _ =>
      .vList [.vDict [("id", .vInt 1), ("partner_id", .vList [.vInt 7, .vStr "Acme"])]],
    default_get := fun _ _ => [("partner_id", .vList [.vInt 3, .vStr "Dflt"])],
    write := fun _ _ _ => .ok (.vBool true) }

/-- A server whose `read` reply has `False` as its first element (the
record does not exist). -/
def srvReadFalse : Server :=
  { read := fun _ _ => .vList [.vBool false],
    default_get := fun _ _ => [],
    write := fun _ _ _ => .ok (.vBool true) }

/-- A server whose `read` reply has an empty mapping as its first
element: a falsy, empty result that is not the boolean `False`. -/
def srvReadEmptyDict : Server :=
  { read := fun _ _ => .vList [.vDict []],
    default_get := fun _ _ => [],
    write := fun _ _ _ => .ok (.vBool true) }

/-- A server whose `write` always raises. -/
def srvWriteFail : Server :=
  { read := srvReadRow.read,
    default_get := fun _ _ => [],
    write := fun _ _ _ => .error (.rpcError "write failed") }

/-- A loaded record of the `fgEx` schema whose `partner_id` was edited
locally to the pair `(9, "Other")`, so that `partner_id` is dirty. -/
def recEx : BrowseRecord :=
  { id := .vInt 1,
    raw_data := .vDict [("id", .vInt 1), ("partner_id", .vList [.vInt 7, .vStr "Acme"])],
    fields_updated := ["partner_id"],
    context := [],
    localVals := [("partner_id", .vList [.vInt 9, .vStr "Other"])] }

/-- `recEx` with one extra dirty name, `ghost`, that is not a key of its
`raw_data`. -/
def recExGhost : BrowseRecord :=
  { recEx with fields_updated := ["partner_id", "ghost"] }

/-- The pool after one plain `get("res.partner")` on a fresh pool. -/
def poolEx1 : ModelPool := (pool_get ModelPool.init "res.partner" false).1

/-! ## Association-list lemmas -/

theorem alHas_iff_mem_keys [DecidableEq α] {l : List (α × β)} {k : α} :
    alHas l k = true ↔ k ∈ l.map Prod.fst := by
  induction l with
  | nil => simp [alHas, alGet]
  | cons p t ih =>
      obtain ⟨pk, pv⟩ := p
      by_cases hk : k = pk
      · simp [alHas, alGet, hk]
      · simpa [alHas, alGet, hk] using ih

theorem alGet_eq_none_of_not_mem_keys [DecidableEq α] {l : List (α × β)}
    {k : α} (h : k ∉ l.map Prod.fst) : alGet l k = none := by
  have : alHas l k = false := by
    cases hh : alHas l k
    · rfl
    · exact absurd (alHas_iff_mem_keys.mp hh) h
  simpa [alHas, Option.isSome_iff_exists] using this

theorem alGet_mem [DecidableEq α] {l : List (α × β)} {k : α} {v : β}
    (h : alGet l k = some v) : (k, v) ∈ l := by
  induction l with
  | nil => simp [alGet] at h
  | cons p t ih =>
      obtain ⟨pk, pv⟩ := p
      by_cases hk : k = pk
      · subst hk
        simp [alGet] at h
        simp [h]
      · simp [alGet, hk] at h
        exact List.mem_cons_of_mem _ (ih h)

theorem alGet_append_right [DecidableEq α] {l m : List (α × β)} {k : α}
    (h : alHas l k = false) : alGet (l ++ m) k = alGet m k := by
  induction l with
  | nil => simp
  | cons p t ih =>
      obtain ⟨pk, pv⟩ := p
      by_cases hk : k = pk
      · simp [alHas, alGet, hk] at h
      · simp only [List.cons_append, alGet, if_neg hk]
        exact ih (by simpa [alHas, alGet, hk] using h)

theorem alGet_alDel_self [DecidableEq α] {l : List (α × β)} {k : α}
    (h : (l.map Prod.fst).Nodup) : alGet (alDel l k) k = none := by
  induction l with
  | nil => rfl
  | cons p t ih =>
      obtain ⟨pk, pv⟩ := p
      simp only [List.map_cons, List.nodup_cons] at h
      by_cases hk : k = pk
      · subst hk
        simpa [alDel] using alGet_eq_none_of_not_mem_keys h.1
      · simpa [alDel, alGet, hk] using ih h.2

theorem alHas_alSet [DecidableEq α] {l : List (α × β)} {k k' : α} {v : β}
    (h : alHas l k = true) : alHas (alSet l k' v) k = true := by
  by_cases hk : k = k'
  · subst hk
    simp [alHas, alGet_alSet_self]
  · simpa [alHas, alGet_alSet_ne l k' k v hk] using h

theorem alHas_alUpdate [DecidableEq α] {l : List (α × β)} {k : α}
    (upd : List (α × β)) (h : alHas l k = true) :
    alHas (alUpdate l upd) k = true := by
  induction upd generalizing l with
  | nil => simpa [alUpdate] using h
  | cons p t ih =>
      simpa [alUpdate] using ih (l := alSet l p.1 p.2) (alHas_alSet h)

/-! ## Lemmas about reset and refresh -/

theorem reset_step_fields_updated (o : BrowseRecord) (p : String × Field) :
    (reset_step o p).fields_updated = o.fields_updated := by
  unfold reset_step
  split
  · split <;> rfl
  · rfl

theorem reset_step_raw_data (o : BrowseRecord) (p : String × Field) :
    (reset_step o p).raw_data = o.raw_data := by
  unfold reset_step
  split
  · split <;> rfl
  · rfl

theorem foldl_reset_step_fields_updated (columns : List (String × Field))
    (o : BrowseRecord) :
    (columns.foldl reset_step o).fields_updated = o.fields_updated := by
  induction columns generalizing o with
  | nil => rfl
  | cons c t ih => rw [List.foldl_cons, ih, reset_step_fields_updated]

theorem foldl_reset_step_raw_data (columns : List (String × Field))
    (o : BrowseRecord) :
    (columns.foldl reset_step o).raw_data = o.raw_data := by
  induction columns generalizing o with
  | nil => rfl
  | cons c t ih => rw [List.foldl_cons, ih, reset_step_raw_data]

theorem osv_reset_fields_updated (columns : List (String × Field))
    (obj : BrowseRecord) : (osv_reset columns obj).fields_updated = [] := by
  rw [osv_reset, foldl_reset_step_fields_updated]

theorem osv_reset_raw_data (columns : List (String × Field))
    (obj : BrowseRecord) : (osv_reset columns obj).raw_data = obj.raw_data := by
  rw [osv_reset, foldl_reset_step_raw_data]

/-- `OSV._refresh` always issues exactly one remote call (one `read` on
the id path, one `default_get` on the draft path), whether or not it
raises. -/
theorem osv_refresh_calls_length (srv : Server)
    (columns : List (String × Field)) (osv_name : String)
    (obj : BrowseRecord) (context : List (String × Value)) :
    (osv_refresh srv columns osv_name obj context).calls.length = 1 := by
  simp only [osv_refresh]
  split
  · split
    · rfl
    · split <;> rfl
  · rfl

/-- A refresh that raises no exception leaves `fields_updated` empty. -/
theorem osv_refresh_ok_fields_updated (srv : Server)
    (columns : List (String × Field)) (osv_name : String)
    (obj : BrowseRecord) (context : List (String × Value))
    (h : (osv_refresh srv columns osv_name obj context).err = none) :
    (osv_refresh srv columns osv_name obj context).obj.fields_updated = [] := by
  simp only [osv_refresh] at h ⊢
  split at h
  · split at h
    · simp at h
    · split at h
      · simp at h
      · simp_all [osv_reset_fields_updated]
  · simp_all [osv_reset_fields_updated]

/-! ## Lemmas about the payload-building loop of `OSV._write_record` -/

/-- Every key the payload loop produces was already a key of
`raw_data` (given that every key accumulated so far was). -/
theorem build_vals_ok_key_of_raw (columns : List (String × Field))
    (obj : BrowseRecord) (fu : List String) :
    ∀ (acc vals : List (String × Value)),
    build_vals columns obj fu acc = .ok vals →
    (∀ g, (alGet acc g).isSome = true → obj.raw_data.hasKeyB g = true) →
    ∀ f, (alGet vals f).isSome = true → obj.raw_data.hasKeyB f = true := by
  induction fu with
  | nil =>
      intro acc vals h hacc f hf
      simp only [build_vals] at h
      injection h with h
      subst h
      exact hacc f hf
  | cons fn rest ih =>
      intro acc vals h hacc f hf
      cases hk : obj.raw_data.hasKeyB fn with
      | false =>
          exact ih acc vals (by simpa [build_vals, hk] using h) hacc f hf
      | true =>
          cases hcol : alGet columns fn with
          | none => simp [build_vals, hk, hcol] at h
          | some field =>
            cases hloc : alGet obj.localVals fn with
            | none => simp [build_vals, hk, hcol, hloc] at h
            | some fv =>
              cases hpay : (if field.isMany2One then m2oPayload fv
                  else some fv) with
              | none => simp [build_vals, hk, hcol, hloc, hpay] at h
              | some v =>
                  refine ih (alSet acc fn v) vals
                    (by simpa [build_vals, hk, hcol, hloc, hpay] using h)
                    ?_ f hf
                  intro g hg
                  by_cases hgf : g = fn
                  · subst hgf
                    exact hk
                  · rw [alGet_alSet_ne acc fn g v hgf] at hg
                    exact hacc g hg

/-- A dirty name that is not a key of `raw_data` is skipped silently:
removing it from the dirty list does not change the loop's outcome. -/
theorem build_vals_skip (columns : List (String × Field))
    (obj : BrowseRecord) (f : String)
    (hf : obj.raw_data.hasKeyB f = false) :
    ∀ (pre post : List String) (acc : List (String × Value)),
    build_vals columns obj (pre ++ f :: post) acc =
      build_vals columns obj (pre ++ post) acc := by
  intro pre
  induction pre with
  | nil => intro post acc; simp [build_vals, hf]
  | cons g t ih =>
      intro post acc
      cases hk : obj.raw_data.hasKeyB g with
      | false =>
          simp only [List.cons_append, build_vals, hk, Bool.false_eq_true,
            if_false]
          exact ih post acc
      | true =>
          cases hcol : alGet columns g with
          | none => simp [build_vals, hk, hcol]
          | some field =>
            cases hloc : alGet obj.localVals g with
            | none => simp [build_vals, hk, hcol, hloc]
            | some fv =>
              cases hpay : (if field.isMany2One then m2oPayload fv
                  else some fv) with
              | none => simp [build_vals, hk, hcol, hloc, hpay]
              | some v =>
                  simp only [List.cons_append, build_vals, hk, if_true,
                    hcol, hloc, hpay]
                  exact ih post (alSet acc g v)

/-- A name not on the dirty list keeps whatever binding the accumulator
gave it. -/
theorem build_vals_ok_lookup_of_notmem (columns : List (String × Field))
    (obj : BrowseRecord) (f : String) (fu : List String) :
    ∀ (acc vals : List (String × Value)), f ∉ fu →
    build_vals columns obj fu acc = .ok vals →
    alGet vals f = alGet acc f := by
  induction fu with
  | nil =>
      intro acc vals _ h
      simp only [build_vals] at h
      injection h with h
      subst h
      rfl
  | cons fn rest ih =>
      intro acc vals hm h
      have hf : f ≠ fn := fun hc => hm (hc ▸ List.mem_cons_self fn rest)
      have hmr : f ∉ rest := fun hc => hm (List.mem_cons_of_mem fn hc)
      cases hk : obj.raw_data.hasKeyB fn with
      | false =>
          exact ih acc vals hmr (by simpa [build_vals, hk] using h)
      | true =>
          cases hcol : alGet columns fn with
          | none => simp [build_vals, hk, hcol] at h
          | some field =>
            cases hloc : alGet obj.localVals fn with
            | none => simp [build_vals, hk, hcol, hloc] at h
            | some fv =>
              cases hpay : (if field.isMany2One then m2oPayload fv
                  else some fv) with
              | none => simp [build_vals, hk, hcol, hloc, hpay] at h
              | some v =>
                  rw [ih (alSet acc fn v) vals hmr
                    (by simpa [build_vals, hk, hcol, hloc, hpay] using h)]
                  exact alGet_alSet_ne acc fn f v hf

/-- The payload's binding for a dirty name that is a `raw_data` key: the
serialized current local value. -/
theorem build_vals_ok_lookup_of_mem (columns : List (String × Field))
    (obj : BrowseRecord) (f : String) (field : Field) (fv w : Value)
    (hcol : alGet columns f = some field)
    (hloc : alGet obj.localVals f = some fv)
    (hraw : obj.raw_data.hasKeyB f = true)
    (hpay : (if field.isMany2One then m2oPayload fv else some fv) = some w)
    (fu : List String) :
    ∀ (acc vals : List (String × Value)), f ∈ fu →
    build_vals columns obj fu acc = .ok vals →
    alGet vals f = some w := by
  induction fu with
  | nil => intro acc vals hm; cases hm
  | cons fn rest ih =>
      intro acc vals hm h
      by_cases hf : f = fn
      · subst hf
        have h' : build_vals columns obj rest (alSet acc f w) = .ok vals := by
          simpa [build_vals, hraw, hcol, hloc, hpay] using h
        by_cases hmr : f ∈ rest
        · exact ih (alSet acc f w) vals hmr h'
        · rw [build_vals_ok_lookup_of_notmem columns obj f rest
            (alSet acc f w) vals hmr h']
          exact alGet_alSet_self acc f w
      · have hmr : f ∈ rest := by
          rcases List.mem_cons.mp hm with hc | hc
          · exact absurd hc hf
          · exact hc
        cases hk : obj.raw_data.hasKeyB fn with
        | false =>
            exact ih acc vals hmr (by simpa [build_vals, hk] using h)
        | true =>
            cases hcol2 : alGet columns fn with
            | none => simp [build_vals, hk, hcol2] at h
            | some field2 =>
              cases hloc2 : alGet obj.localVals fn with
              | none => simp [build_vals, hk, hcol2, hloc2] at h
              | some fv2 =>
                cases hpay2 : (if field2.isMany2One then m2oPayload fv2
                    else some fv2) with
                | none => simp [build_vals, hk, hcol2, hloc2, hpay2] at h
                | some v2 =>
                    exact ih (alSet acc fn v2) vals hmr
                      (by simpa [build_vals, hk, hcol2, hloc2, hpay2] using h)

/-! ## Claim theorems -/

/-- C8: for every remote schema returned by introspection, the generated
field-descriptor map contains no reserved name (`id`, `__oerp__`,
`__osv__`, `__data__`), and when the remote schema has no field named
`name`, the map binds `name` to a synthetic read-only text descriptor. -/
theorem generate_columns_no_reserved_and_synthetic_name
    (fields_get : List (String × FieldDef)) :
    (∀ p ∈ generate_columns fields_get, p.1 ∉ fields_reserved) ∧
    (alHas fields_get "name" = false →
      alGet (generate_columns fields_get) "name" =
        some (Field.mk "name" "text" "Name" true)) := by
  have hmem_base : ∀ p ∈ generate_base fields_get, p.1 ∉ fields_reserved := by
    intro p hp
    obtain ⟨q, hq, rfl⟩ := List.mem_map.mp hp
    exact of_decide_eq_true (List.mem_filter.mp hq).2
  constructor
  · intro p hp
    simp only [generate_columns] at hp
    split at hp
    · exact hmem_base p hp
    · rcases List.mem_append.mp hp with hl | hr
      · exact hmem_base p hl
      · simp only [List.mem_singleton] at hr
        subst hr
        decide
  · intro hname
    have hbase : alHas (generate_base fields_get) "name" = false := by
      cases hh : alHas (generate_base fields_get) "name"
      · rfl
      · exfalso
        have hmem := alHas_iff_mem_keys.mp hh
        simp only [generate_base, List.map_map] at hmem
        obtain ⟨q, hq, hq1⟩ := List.mem_map.mp hmem
        have : alHas fields_get "name" = true := by
          refine alHas_iff_mem_keys.mpr ?_
          refine List.mem_map.mpr ⟨q, (List.mem_filter.mp hq).1, ?_⟩
          simpa using hq1
        simp [this] at hname
    simp only [generate_columns]
    rw [if_neg (by simp [hbase])]
    rw [alGet_append_right hbase]
    rfl

/-- Witness for C8 at the concrete schema `fgEx` (which has no remote
`name` field). -/
theorem generate_columns_no_reserved_and_synthetic_name_witness :
    alHas fgEx "name" = false ∧
    alGet (generate_columns fgEx) "name" =
      some (Field.mk "name" "text" "Name" true) :=
  ⟨by decide,
   (generate_columns_no_reserved_and_synthetic_name fgEx).2 (by decide)⟩

/-- C1, counterexample: on a fresh pool, `get("res.partner")` followed by
`get("res.partner", refresh=True)` returns a distinct new proxy, but the
generated-type index is NOT updated: it still maps the old proxy's class
to the old proxy, and has no entry at all for the new proxy's class —
refuting the part of the claim that says the refresh replaces the prior
entry in the generated-type index. -/
theorem pool_get_refresh_class_index_cex :
    (pool_get poolEx1 "res.partner" true).2 = some (Factory.mk 1 1) ∧
    some (Factory.mk 1 1) ≠ alGet poolEx1.byName "res.partner" ∧
    pool_get_by_class (pool_get poolEx1 "res.partner" true).1 1 = none ∧
    pool_get_by_class (pool_get poolEx1 "res.partner" true).1 0 =
      some (Factory.mk 0 0) := by
  refine ⟨rfl, by decide, rfl, rfl⟩

/-- C1, amended: `get` twice without `refresh=True` returns the identical
cached proxy and leaves the pool unchanged; `get` with `refresh=True` on
a cached name returns a distinct new proxy and replaces the prior entry
in the name index only — the generated-type index is left entirely
unchanged.  The freshness hypothesis states that every cached proxy
predates the allocation counter, which holds for every pool built by
`pool_get`. -/
theorem pool_get_cached_identity_and_refresh_name_index_only
    (p : ModelPool) (name : String) (f : Factory)
    (hwf : ∀ q ∈ p.byName, q.2.fid < p.counter)
    (hc : alGet p.byName name = some f) :
    pool_get p name false = (p, some f) ∧
    (pool_get p name true).2 = some (Factory.mk p.counter p.counter) ∧
    f ≠ Factory.mk p.counter p.counter ∧
    (pool_get p name true).1.byClass = p.byClass ∧
    alGet (pool_get p name true).1.byName name =
      some (Factory.mk p.counter p.counter) := by
  have hhas : alHas p.byName name = true := by simp [alHas, hc]
  have hfid : f.fid < p.counter := hwf (name, f) (alGet_mem hc)
  refine ⟨?_, ?_, ?_, ?_, ?_⟩
  · simp [pool_get, hhas, hc]
  · simp [pool_get, hhas, alGet_alSet_self]
  · intro h
    rw [h] at hfid
    exact lt_irrefl _ hfid
  · simp [pool_get, hhas]
  · simp [pool_get, hhas, alGet_alSet_self]

/-- Witness for C1's amended theorem on the concrete pool `poolEx1`. -/
theorem pool_get_cached_identity_witness :
    pool_get poolEx1 "res.partner" false = (poolEx1, some (Factory.mk 0 0)) ∧
    (pool_get poolEx1 "res.partner" true).1.byClass = poolEx1.byClass :=
  ⟨(pool_get_cached_identity_and_refresh_name_index_only poolEx1 "res.partner"
      (Factory.mk 0 0) (by decide) (by decide)).1,
   (pool_get_cached_identity_and_refresh_name_index_only poolEx1 "res.partner"
      (Factory.mk 0 0) (by decide) (by decide)).2.2.2.1⟩

/-- C10: deleting a cached entity name from the pool removes the proxy
from the name index only; the generated-type index is unchanged, so
`get_by_class` for the evicted proxy's record class still returns the
evicted proxy.  (The key-uniqueness hypothesis matches Python dict keys;
it holds for every pool built by `pool_get`.) -/
theorem pool_delitem_keeps_class_index
    (p : ModelPool) (name : String) (f : Factory)
    (hnd : (p.byName.map Prod.fst).Nodup)
    (hc : alGet p.byName name = some f)
    (hcls : pool_get_by_class p f.osvClass = some f) :
    (pool_delitem p name).2 = none ∧
    alGet (pool_delitem p name).1.byName name = none ∧
    (pool_delitem p name).1.byClass = p.byClass ∧
    pool_get_by_class (pool_delitem p name).1 f.osvClass = some f := by
  refine ⟨?_, ?_, ?_, ?_⟩
  · simp [pool_delitem, hc]
  · simp [pool_delitem, hc, alGet_alDel_self hnd]
  · simp [pool_delitem, hc]
  · simpa [pool_delitem, hc, pool_get_by_class] using hcls

/-- Witness for C10 on the concrete pool `poolEx1`. -/
theorem pool_delitem_keeps_class_index_witness :
    (pool_delitem poolEx1 "res.partner").2 = none ∧
    pool_get_by_class (pool_delitem poolEx1 "res.partner").1 0 =
      some (Factory.mk 0 0) :=
  ⟨(pool_delitem_keeps_class_index poolEx1 "res.partner" (Factory.mk 0 0)
      (by decide) (by decide) (by decide)).1,
   (pool_delitem_keeps_class_index poolEx1 "res.partner" (Factory.mk 0 0)
      (by decide) (by decide) (by decide)).2.2.2⟩

/-- C2, counterexample: refreshing id 42 against a server whose read
reply's first element is an empty mapping — a falsy/empty result that is
not the boolean `False` — raises no error at all: the empty mapping is
simply stored in `raw_data`.  This refutes the claim that every
falsy/empty read result raises the not-found error (the code tests
`is False`, not falsiness). -/
theorem refresh_falsy_read_no_error_cex :
    (Value.vDict []).truthy = false ∧
    (osv_refresh srvReadEmptyDict colsEx "res.partner"
      (newRecord (.vInt 42)) []).err = none ∧
    (osv_refresh srvReadEmptyDict colsEx "res.partner"
      (newRecord (.vInt 42)) []).obj.raw_data = .vDict [] := by
  refine ⟨rfl, rfl, rfl⟩

/-- C2, amended: a refresh whose remote read returns exactly the boolean
`False` as the record's row raises an `RPCError` whose message names the
entity and the id (`raw_data` is left holding `False`, no field data). -/
theorem refresh_false_read_raises_not_found (srv : Server)
    (columns : List (String × Field)) (osv_name : String)
    (obj : BrowseRecord) (context : List (String × Value))
    (hid : obj.id.truthy = true)
    (hread : (srv.read [obj.id] context).sub0 = some (.vBool false)) :
    (osv_refresh srv columns osv_name obj context).err =
      some (.rpcError
        ("There is no '" ++ osv_name ++ "' record with ID "
          ++ obj.id.pyStr ++ ".")) ∧
    (osv_refresh srv columns osv_name obj context).obj.raw_data =
      .vBool false := by
  simp only [osv_refresh, hid, hread]
  exact ⟨rfl, rfl⟩

/-- Witness for C2's amended theorem: refreshing id `42` of
`res.partner` against `srvReadFalse` produces the error message naming
both the entity and the id. -/
theorem refresh_false_read_raises_not_found_witness :
    (osv_refresh srvReadFalse colsEx "res.partner"
      (newRecord (.vInt 42)) []).err =
      some (.rpcError "There is no 'res.partner' record with ID 42.") :=
  (refresh_false_read_raises_not_found srvReadFalse colsEx "res.partner"
    (newRecord (.vInt 42)) [] rfl rfl).1

/-- C3, counterexample: the schema generated from `fgEx` contains the
synthetic `name` descriptor, yet after a successful refresh of an
existing id (the server row covering every server-side field), `raw_data`
has no entry for `name` — refuting the claim that after a refresh every
schema field, including the synthetic `name`, is present in `raw_data`. -/
theorem refresh_missing_synthetic_name_cex :
    (alGet colsEx "name").isSome = true ∧
    (osv_refresh srvReadRow colsEx "res.partner"
      (newRecord (.vInt 1)) []).err = none ∧
    (osv_refresh srvReadRow colsEx "res.partner"
      (newRecord (.vInt 1)) []).obj.fields_updated = [] ∧
    (osv_refresh srvReadRow colsEx "res.partner"
      (newRecord (.vInt 1)) []).obj.raw_data.hasKeyB "name" = false := by
  refine ⟨rfl, rfl, rfl, rfl⟩

/-- C3, amended: after a refresh completes without error,
`fields_updated` is empty; on the draft/default-values path `raw_data`
has an entry for every schema field (the synthetic `name` included); on
the existing-id path `raw_data` is exactly the first element of the
server's read reply, which need not cover every schema field. -/
theorem refresh_clears_dirty_and_draft_covers_schema (srv : Server)
    (columns : List (String × Field)) (osv_name : String)
    (obj : BrowseRecord) (context : List (String × Value))
    (h : (osv_refresh srv columns osv_name obj context).err = none) :
    (osv_refresh srv columns osv_name obj context).obj.fields_updated = [] ∧
    (obj.id.truthy = false →
      ∀ p ∈ columns,
        (osv_refresh srv columns osv_name obj context).obj.raw_data.hasKeyB
          p.1 = true) ∧
    (obj.id.truthy = true →
      some (osv_refresh srv columns osv_name obj context).obj.raw_data =
        (srv.read [obj.id] context).sub0) := by
  refine ⟨osv_refresh_ok_fields_updated srv columns osv_name obj context h,
    ?_, ?_⟩
  · intro hid p hp
    simp only [osv_refresh, hid, Bool.false_eq_true, if_false]
    rw [osv_reset_raw_data]
    show alHas (alUpdate (columns.map fun q => (q.1, Value.vBool false)) _)
      p.1 = true
    apply alHas_alUpdate
    refine alHas_iff_mem_keys.mpr ?_
    simp only [List.map_map]
    exact List.mem_map.mpr ⟨p, hp, rfl⟩
  · intro hid
    simp only [osv_refresh, hid, if_true] at h ⊢
    split at h
    · simp at h
    · split at h
      · simp at h
      · simp_all [osv_reset_raw_data]

/-- Witness for C3's amended theorem: a draft record (falsy id) of the
`fgEx` schema refreshed against `srvReadRow` ends with no dirty fields
and with both `partner_id` and the synthetic `name` present in
`raw_data`. -/
theorem refresh_clears_dirty_and_draft_covers_schema_witness :
    (osv_refresh srvReadRow colsEx "res.partner"
      (newRecord (.vBool false)) []).obj.fields_updated = [] ∧
    (osv_refresh srvReadRow colsEx "res.partner"
      (newRecord (.vBool false)) []).obj.raw_data.hasKeyB "name" = true ∧
    (osv_refresh srvReadRow colsEx "res.partner"
      (newRecord (.vBool false)) []).obj.raw_data.hasKeyB "partner_id" =
      true :=
  ⟨(refresh_clears_dirty_and_draft_covers_schema srvReadRow colsEx
      "res.partner" (newRecord (.vBool false)) [] rfl).1,
   (refresh_clears_dirty_and_draft_covers_schema srvReadRow colsEx
      "res.partner" (newRecord (.vBool false)) [] rfl).2.1 rfl
      ("name", Field.mk "name" "text" "Name" true) (by decide),
   (refresh_clears_dirty_and_draft_covers_schema srvReadRow colsEx
      "res.partner" (newRecord (.vBool false)) [] rfl).2.1 rfl
      ("partner_id", Field.mk "partner_id" "many2one" "Partner" false)
      (by decide)⟩

/-- C6: under the `compatible` configuration flag, a dynamically
forwarded call with any keyword argument raises the `RPCError`
"Named parameters are not supported in compatibility mode" and issues no
transport call at all; with no keyword arguments it forwards the call
positionally through `execute`. -/
theorem rpc_compatible_kwargs_fail_fast (cfg : OerpConfig)
    (octx : List (String × Value)) (exec : RCall → Value)
    (osv_name mname : String) (args : List Value)
    (kwargs : List (String × Value)) (hc : cfg.compatible = true) :
    (kwargs ≠ [] →
      osv_rpc_method cfg octx exec osv_name mname args kwargs =
        (.error (.rpcError namedParamsMsg), [])) ∧
    (kwargs = [] →
      osv_rpc_method cfg octx exec osv_name mname args kwargs =
        (.ok (exec (RCall.execute osv_name mname args)),
          [RCall.execute osv_name mname args])) := by
  constructor
  · intro hk
    have hke : kwargs.isEmpty = false := by
      cases kwargs
      · simp at hk
      · rfl
    simp [osv_rpc_method, hc, hke]
  · intro hk
    subst hk
    simp [osv_rpc_method, hc]

/-- Witness for C6: a concrete compatibility-mode configuration, with a
keyword argument (error, empty trace) and without (positional
forwarding). -/
theorem rpc_compatible_kwargs_fail_fast_witness :
    osv_rpc_method ⟨true, false⟩ [] (fun _ => .vBool true) "res.partner"
      "search" [] [("context", .vDict [])] =
      (.error (.rpcError namedParamsMsg), []) ∧
    osv_rpc_method ⟨true, false⟩ [] (fun _ => .vBool true) "res.partner"
      "search" [.vList []] [] =
      (.ok (.vBool true),
        [RCall.execute "res.partner" "search" [.vList []]]) :=
  ⟨(rpc_compatible_kwargs_fail_fast ⟨true, false⟩ [] (fun _ => .vBool true)
      "res.partner" "search" [] [("context", .vDict [])] rfl).1
      (List.cons_ne_nil _ _),
   (rpc_compatible_kwargs_fail_fast ⟨true, false⟩ [] (fun _ => .vBool true)
      "res.partner" "search" [.vList []] [] rfl).2 rfl⟩

/-- C7: `browse` on a list of ids returns the suspended generator with
an empty remote-call trace (no call at creation); pulling from the empty
generator yields nothing (so `browse([])` is an empty sequence with zero
remote calls); pulling an element browses exactly that single id, and
that per-element fetch issues exactly one remote call; and the element
fetch agrees with `browse` called on that single (non-list) id. -/
theorem browse_list_lazy_one_call_per_pull (srv : Server)
    (columns : List (String × Field)) (osv_name : String)
    (ids : List Value) (i : Value) (rest : List Value)
    (context : List (String × Value)) :
    osv_browse srv columns osv_name (.vList ids) context =
      (.gen ids context, []) ∧
    gen_pull srv columns osv_name [] context = none ∧
    gen_pull srv columns osv_name (i :: rest) context =
      some (osv_browse_one srv columns osv_name i context, rest) ∧
    (osv_browse_one srv columns osv_name i context).calls.length = 1 ∧
    (i.isVList = false →
      osv_browse srv columns osv_name i context =
        (.single (osv_browse_one srv columns osv_name i context).obj
            (osv_browse_one srv columns osv_name i context).err,
          (osv_browse_one srv columns osv_name i context).calls)) := by
  refine ⟨rfl, rfl, rfl,
    osv_refresh_calls_length srv columns osv_name (newRecord i) context, ?_⟩
  intro hi
  cases i <;> first
    | rfl
    | simp [Value.isVList] at hi

/-- Witness for C7: concrete empty and singleton id lists against
`srvReadRow`. -/
theorem browse_list_lazy_one_call_per_pull_witness :
    osv_browse srvReadRow colsEx "res.partner" (.vList []) [] =
      (.gen [] [], []) ∧
    gen_pull srvReadRow colsEx "res.partner" [] [] = none ∧
    (osv_browse_one srvReadRow colsEx "res.partner" (.vInt 1) []).calls.length
      = 1 ∧
    osv_browse srvReadRow colsEx "res.partner" (.vInt 1) [] =
      (.single (osv_browse_one srvReadRow colsEx "res.partner" (.vInt 1) []).obj
          (osv_browse_one srvReadRow colsEx "res.partner" (.vInt 1) []).err,
        (osv_browse_one srvReadRow colsEx "res.partner" (.vInt 1) []).calls) :=
  ⟨(browse_list_lazy_one_call_per_pull srvReadRow colsEx "res.partner" []
      (.vInt 1) [] []).1,
   (browse_list_lazy_one_call_per_pull srvReadRow colsEx "res.partner" []
      (.vInt 1) [] []).2.1,
   (browse_list_lazy_one_call_per_pull srvReadRow colsEx "res.partner" []
      (.vInt 1) [] []).2.2.2.1,
   (browse_list_lazy_one_call_per_pull srvReadRow colsEx "res.partner" []
      (.vInt 1) [] []).2.2.2.2 rfl⟩

/-- C9: the payload `OSV._write_record` builds binds a dirty field only
if that name is also a key of `raw_data`; a name on the dirty list that
is not a `raw_data` key is silently omitted — removing it from the dirty
list changes nothing, and it raises no error. -/
theorem write_vals_only_raw_data_keys (columns : List (String × Field))
    (obj : BrowseRecord) (f : String) :
    (∀ vals, build_vals columns obj obj.fields_updated [] = .ok vals →
      (alGet vals f).isSome = true → obj.raw_data.hasKeyB f = true) ∧
    (obj.raw_data.hasKeyB f = false →
      ∀ pre post acc, build_vals columns obj (pre ++ f :: post) acc =
        build_vals columns obj (pre ++ post) acc) := by
  constructor
  · intro vals h hf
    refine build_vals_ok_key_of_raw columns obj obj.fields_updated [] vals h
      ?_ f hf
    intro g hg
    simp [alGet] at hg
  · intro hf pre post acc
    exact build_vals_skip columns obj f hf pre post acc

/-- Witness for C9 on `recExGhost`: the dirty name `ghost` (absent from
`raw_data`) is dropped from the payload without an error, and
`partner_id` (present in the payload) is a `raw_data` key. -/
theorem write_vals_only_raw_data_keys_witness :
    build_vals colsEx recExGhost (["partner_id"] ++ "ghost" :: []) [] =
      build_vals colsEx recExGhost (["partner_id"] ++ []) [] ∧
    recExGhost.raw_data.hasKeyB "partner_id" = true :=
  ⟨(write_vals_only_raw_data_keys colsEx recExGhost "ghost").2 rfl
      ["partner_id"] [] [],
   (write_vals_only_raw_data_keys colsEx recExGhost "partner_id").1
      [("partner_id", .vInt 9)] rfl rfl⟩

/-- C5: for a dirty Many2One field whose current local value is the
(id, label) pair that reads return, the payload binds the field to the
related id alone — and in particular never to such a pair. -/
theorem write_payload_many2one_id_only (columns : List (String × Field))
    (obj : BrowseRecord) (vals : List (String × Value)) (f : String)
    (field : Field) (i : Int) (s : String)
    (hcol : alGet columns f = some field)
    (hm2o : field.isMany2One = true)
    (hdirty : f ∈ obj.fields_updated)
    (hraw : obj.raw_data.hasKeyB f = true)
    (hval : alGet obj.localVals f = some (.vList [.vInt i, .vStr s]))
    (hok : build_vals columns obj obj.fields_updated [] = .ok vals) :
    alGet vals f = some (.vInt i) ∧
    ∀ j t, alGet vals f ≠ some (.vList [.vInt j, .vStr t]) := by
  have hpay : (if field.isMany2One
      then m2oPayload (Value.vList [.vInt i, .vStr s])
      else some (Value.vList [.vInt i, .vStr s])) = some (.vInt i) := by
    simp [hm2o, m2oPayload, Value.truthy, Value.sub0]
  have hlook := build_vals_ok_lookup_of_mem columns obj f field
    (.vList [.vInt i, .vStr s]) (.vInt i) hcol hval hraw hpay
    obj.fields_updated [] vals hdirty hok
  refine ⟨hlook, ?_⟩
  intro j t hcontra
  rw [hlook] at hcontra
  simp at hcontra

/-- Witness for C5 on `recEx`: the dirty `partner_id`, locally the pair
`(9, "Other")`, is serialized to the bare id `9` in the payload. -/
theorem write_payload_many2one_id_only_witness :
    alGet [("partner_id", Value.vInt 9)] "partner_id" =
      some (Value.vInt 9) :=
  (write_payload_many2one_id_only colsEx recEx [("partner_id", .vInt 9)]
    "partner_id" (Field.mk "partner_id" "many2one" "Partner" false) 9 "Other"
    rfl rfl (List.mem_singleton.mpr rfl) rfl rfl rfl).1

/-- C4: if the remote write fails, `OSV._write_record` re-raises with the
record — in particular its `fields_updated` list — completely untouched;
if the write succeeds, the record is re-refreshed (its state and trace
are those of `OSV._refresh`) and, the refresh raising nothing, its dirty
list is cleared. -/
theorem write_record_failure_keeps_dirty_success_clears :
    (∀ (srv : Server) (columns : List (String × Field)) (osv_name : String)
       (obj : BrowseRecord) (context : List (String × Value)) vals e,
      build_vals columns obj obj.fields_updated [] = .ok vals →
      srv.write [obj.id] vals context = .error e →
      osv_write_record srv columns osv_name obj context =
        (obj, .error e, [SCall.write [obj.id] vals context])) ∧
    (∀ (srv : Server) (columns : List (String × Field)) (osv_name : String)
       (obj : BrowseRecord) (context : List (String × Value)) vals res,
      build_vals columns obj obj.fields_updated [] = .ok vals →
      srv.write [obj.id] vals context = .ok res →
      (osv_refresh srv columns osv_name obj context).err = none →
      osv_write_record srv columns osv_name obj context =
        ((osv_refresh srv columns osv_name obj context).obj, .ok res,
          SCall.write [obj.id] vals context ::
            (osv_refresh srv columns osv_name obj context).calls) ∧
      (osv_write_record srv columns osv_name obj context).1.fields_updated
        = []) := by
  constructor
  · intro srv columns osv_name obj context vals e hb hw
    simp [osv_write_record, hb, hw]
  · intro srv columns osv_name obj context vals res hb hw hr
    have h1 : osv_write_record srv columns osv_name obj context =
        ((osv_refresh srv columns osv_name obj context).obj, .ok res,
          SCall.write [obj.id] vals context ::
            (osv_refresh srv columns osv_name obj context).calls) := by
      simp [osv_write_record, hb, hw, hr]
    refine ⟨h1, ?_⟩
    rw [h1]
    exact osv_refresh_ok_fields_updated srv columns osv_name obj context hr

/-- Witness for C4: against `srvWriteFail` the failed write leaves
`recEx` (dirty list included) untouched; against `srvReadRow` the
successful write ends with an empty dirty list. -/
theorem write_record_failure_keeps_dirty_witness :
    osv_write_record srvWriteFail colsEx "res.partner" recEx [] =
      (recEx, .error (.rpcError "write failed"),
        [SCall.write [.vInt 1] [("partner_id", .vInt 9)] []]) ∧
    (osv_write_record srvReadRow colsEx "res.partner" recEx
      []).1.fields_updated = [] :=
  ⟨(write_record_failure_keeps_dirty_success_clears).1 srvWriteFail colsEx
      "res.partner" recEx [] [("partner_id", .vInt 9)]
      (.rpcError "write failed") rfl rfl,
   ((write_record_failure_keeps_dirty_success_clears).2 srvReadRow colsEx
      "res.partner" recEx [] [("partner_id", .vInt 9)] (.vBool true)
      rfl rfl rfl).2⟩

end Oerplib
